import Mathlib

/-! Embedding of the route-table and controller core of the repository:
the `route` package (Item, Route, FormatCIDR, checkValidCIDR, AddItem,
AddEphemeralItem, RemoveItem, RemoveEphemeralItem, PersistEphemeralItem,
Match) and the `controller` package (read/write loops, GetReqId).
Go strings are modelled as lists of characters; Go's `net.ParseCIDR` and
`(*net.IPNet).String` are embedded for IPv4 dotted-quad networks. -/

/-- Decimal digit character for a value below ten. -/
def decDigit (n : Nat) : Char :=
  if n = 0 then '0' else if n = 1 then '1' else if n = 2 then '2'
  else if n = 3 then '3' else if n = 4 then '4' else if n = 5 then '5'
  else if n = 6 then '6' else if n = 7 then '7' else if n = 8 then '8' else '9'

/-- Fuel-driven decimal printer (structurally recursive so that concrete
instances evaluate inside the kernel). -/
def decAux : Nat → Nat → List Char
  | 0, _ => []
  | fuel + 1, n =>
    if n < 10 then [decDigit n] else decAux fuel (n / 10) ++ [decDigit (n % 10)]

/-- Decimal representation of a natural number, as Go's `uitoa` prints it. -/
def decL (n : Nat) : List Char := decAux (n + 1) n

/-- Character is an ASCII decimal digit. -/
def isDigitC (c : Char) : Bool := 48 ≤ c.toNat && c.toNat ≤ 57

/-- Value of an all-digit field, accumulated left to right as Go's `dtoi`. -/
def digitsVal (l : List Char) : Nat := l.foldl (fun a c => a * 10 + (c.toNat - 48)) 0

/-- Decimal field parser: Go's `dtoi` consuming the whole field. It requires
at least one digit and only digits; leading zeros are accepted. -/
def parseNatL (l : List Char) : Option Nat :=
  match l with
  | [] => none
  | _ :: _ => if l.all isDigitC then some (digitsVal l) else none

/-- Whether the string contains a slash (Go `strings.Index(s, "/") >= 0`). -/
def hasSlash : List Char → Bool
  | [] => false
  | c :: r => c == '/' || hasSlash r

/-- Split at the first slash into address part and mask part, as Go's
`ParseCIDR` does with `strings.Index(s, "/")`. -/
def splitSlash : List Char → Option (List Char × List Char)
  | [] => none
  | c :: r =>
    if c == '/' then some ([], r)
    else (splitSlash r).map (fun p => (c :: p.1, p.2))

/-- Split on every dot, keeping empty fields (Go `parseIPv4` field loop). -/
def splitDot : List Char → List (List Char)
  | [] => [[]]
  | c :: r =>
    if c == '.' then [] :: splitDot r
    else
      match splitDot r with
      | g :: gs => (c :: g) :: gs
      | [] => [[c]]

/-- IPv4 network: masked base address and mask length (Go `net.IPNet`
built by `ParseCIDR`). -/
structure IPNet where
  base : Nat
  ones : Nat
deriving DecidableEq

/-- Keep the top `p` bits of a 32-bit address:
Go `ip.Mask(net.CIDRMask(p, 32))`. -/
def maskBits (p a : Nat) : Nat := a - a % 2 ^ (32 - p)

/-- Go `parseIPv4`: four dot-separated decimal fields, each at most 255. -/
def parseIPv4L (l : List Char) : Option Nat :=
  match splitDot l with
  | [a, b, c, d] =>
    match parseNatL a, parseNatL b, parseNatL c, parseNatL d with
    | some x, some y, some z, some w =>
      if x ≤ 255 ∧ y ≤ 255 ∧ z ≤ 255 ∧ w ≤ 255 then
        some (((x * 256 + y) * 256 + z) * 256 + w)
      else none
    | _, _, _, _ => none
  | _ => none

/-- Go `net.ParseCIDR` for IPv4: address part before the first slash, decimal
mask length at most 32 after it; the returned network has the masked base. -/
def parseCIDRL (l : List Char) : Option IPNet :=
  match splitSlash l with
  | some (addr, mask) =>
    match parseIPv4L addr, parseNatL mask with
    | some a, some n => if n ≤ 32 then some ⟨maskBits n a, n⟩ else none
    | _, _ => none
  | none => none

/-- Dotted-quad printing of a 32-bit address (Go `IP.String` for IPv4). -/
def ipv4L (a : Nat) : List Char :=
  decL (a / 16777216) ++ '.' :: (decL (a / 65536 % 256) ++
    '.' :: (decL (a / 256 % 256) ++ '.' :: decL (a % 256)))

/-- Go `(*net.IPNet).String`: masked address, slash, mask length. -/
def netStringL (n : IPNet) : List Char := ipv4L n.base ++ '/' :: decL n.ones

/-- Characters of the literal "/32" appended by `FormatCIDR`. -/
def slash32 : List Char := ['/', '3', '2']

/-- Go `route.FormatCIDR` on character lists: append "/32" when no slash is
present, then canonicalise through `ParseCIDR` when it succeeds. -/
def formatL (l : List Char) : List Char :=
  let l2 := if hasSlash l then l else l ++ slash32
  match parseCIDRL l2 with
  | some n => netStringL n
  | none => l2

/-- Go `route.FormatCIDR` (src/unnamed/part_000 lines 227-238). -/
def FormatCIDR (s : String) : String := ⟨formatL s.data⟩

/-- Go `route.checkValidCIDR` calls `net.ParseCIDR` directly (no
canonicalisation) and reports success or failure. -/
def checkValidCIDRB (cidr : String) : Bool := (parseCIDRL cidr.data).isSome

/-- Error values produced by the `route` package. -/
inductive RouteError
  /-- `ErrRouteItemNotFound`: "route item 'cidr' not found". -/
  | notFound (cidr : String)
  /-- `ErrRouteItemContains`: "route item 'c1' contains by 'c2'". -/
  | contains (c1 c2 : String)
  /-- wrap of the `net.ParseCIDR` failure in `checkValidCIDR`. -/
  | invalidCIDR (cidr : String)
  /-- failure of the external `util.Shell` route command. -/
  | osFail (msg : String)
deriving DecidableEq

/-- Go `route.checkValidCIDR` (src/unnamed/part_000 lines 240-246). -/
def checkValidCIDR (cidr : String) : Option RouteError :=
  if checkValidCIDRB cidr then none else some (RouteError.invalidCIDR cidr)

/-- Go `route.Item`: canonical CIDR string, comment, parsed network. -/
structure Item where
  CIDR : String
  Comment : String
  ipnet : IPNet
deriving DecidableEq

/-- Go `route.EphemeralItem`: an embedded `Item` plus an absolute expiry
instant (`time.Time` modelled as a natural timestamp). -/
structure EphemeralItem where
  item : Item
  Expired : Nat
deriving DecidableEq

/-- Modelled from the spec: `ip.MatchIPNet` (package `next/ip`, not under
src/). Containment semantics of the match: the entry's network contains or
intersects the target, checked symmetrically; for CIDR networks two ranges
intersect exactly when one contains the other. `netContainsB outer inner`
holds when the inner range lies inside the outer range. -/
def netContainsB (outer inner : IPNet) : Bool :=
  outer.ones ≤ inner.ones && maskBits outer.ones inner.base == outer.base

/-- Modelled from the spec: symmetric containment test of `ip.MatchIPNet`. -/
def MatchIPNet (target entry : IPNet) : Bool :=
  netContainsB entry target || netContainsB target entry

/-- Byte-wise string order used by Go's `sort` on CIDR strings. -/
def strLeL : List Char → List Char → Bool
  | [], _ => true
  | _ :: _, [] => false
  | a :: as, b :: bs =>
    if a.toNat < b.toNat then true
    else if b.toNat < a.toNat then false
    else strLeL as bs

/-- Byte-wise comparison of two strings (Go `a <= b`). -/
def strLe (a b : String) : Bool := strLeL a.data b.data

/-- Modelled from the spec: `Items.Match` (persistent table, file not under
src/) returns the first entry in list order whose network contains or
intersects the queried network. -/
def itemsMatch : List Item → IPNet → Option Item
  | [], _ => none
  | i :: rest, t => if MatchIPNet t i.ipnet then some i else itemsMatch rest t

/-- Modelled from the spec: `Items.Remove` (file not under src/) removes and
returns the entry whose canonical CIDR string matches exactly. -/
def itemsRemove : List Item → String → Option (Item × List Item)
  | [], _ => none
  | i :: rest, c =>
    if i.CIDR = c then some (i, rest)
    else (itemsRemove rest c).map (fun p => (p.1, i :: p.2))

/-- Modelled from the spec: `Items.Append`, an unconditioned insert. -/
def itemsAppend (l : List Item) (i : Item) : List Item := l ++ [i]

/-- Insertion step of the sort by canonical CIDR string ascending. -/
def insertSorted (i : Item) : List Item → List Item
  | [] => [i]
  | j :: rest => if strLe i.CIDR j.CIDR then i :: j :: rest else j :: insertSorted i rest

/-- Modelled from the spec: `Items.Sort` reorders by canonical CIDR string
ascending (insertion sort). -/
def itemsSort : List Item → List Item
  | [] => []
  | i :: rest => insertSorted i (itemsSort rest)

/-- Modelled from the spec: `EphemeralItems.Add` (file not under src/) keeps
the collection ordered by ascending expiry, front being the soonest. -/
def ephInsert (e : EphemeralItem) : List EphemeralItem → List EphemeralItem
  | [] => [e]
  | f :: rest => if e.Expired < f.Expired then e :: f :: rest else f :: ephInsert e rest

/-- Modelled from the spec: `EphemeralItems.Match` scans all held entries in
order with the same containment semantics as the persistent table. -/
def ephMatch : List EphemeralItem → IPNet → Option EphemeralItem
  | [], _ => none
  | e :: rest, t => if MatchIPNet t e.item.ipnet then some e else ephMatch rest t

/-- Modelled from the spec: `EphemeralItems.Remove`, an exact canonical-string
match over a linear scan. -/
def ephRemove : List EphemeralItem → String → Option (EphemeralItem × List EphemeralItem)
  | [], _ => none
  | e :: rest, c =>
    if e.item.CIDR = c then some (e, rest)
    else (ephRemove rest c).map (fun p => (p.1, e :: p.2))

/-- Shell command issued to the OS route collaborator
(`genAddRouteCmd` / `genRemoveRouteCmd` + `util.Shell`). -/
inductive OsCmd
  | set (dev cidr : String)
  | del (cidr : String)
deriving DecidableEq

/-- In-memory state of Go `route.Route`: persistent table, ephemeral table,
device name, and the capacity-one wake signal `newEphemeralItem`. -/
structure RouteState where
  items : List Item
  ephemeralItems : List EphemeralItem
  devName : String
  newEphemeralItem : Bool
deriving DecidableEq

/-- Outcome of a `Route` operation: returned error, new state, and the list
of OS route commands invoked. The parameter `os` gives the result of each
`util.Shell` invocation (`none` is success). -/
abbrev RouteOutcome := Option RouteError × RouteState × List OsCmd

/-- Go `Route.DeleteRoute`: run the remove-route shell command. -/
def RouteDeleteRoute (os : OsCmd → Option String) (cidr : String) :
    Option RouteError × List OsCmd :=
  ((os (OsCmd.del cidr)).map RouteError.osFail, [OsCmd.del cidr])

/-- Go `Route.SetRoute`: run the add-route shell command. -/
def RouteSetRoute (os : OsCmd → Option String) (dev cidr : String) :
    Option RouteError × List OsCmd :=
  ((os (OsCmd.set dev cidr)).map RouteError.osFail, [OsCmd.set dev cidr])

/-- Go `Route.RemoveEphemeralItem` (src/unnamed/part_000 lines 128-133). -/
def RemoveEphemeralItem (os : OsCmd → Option String) (st : RouteState)
    (cidr : String) : RouteOutcome :=
  match ephRemove st.ephemeralItems cidr with
  | some (_, eph2) =>
    let r := RouteDeleteRoute os cidr
    (r.1, { st with ephemeralItems := eph2 }, r.2)
  | none => (some (RouteError.notFound cidr), st, [])

/-- Go `Route.RemoveItem` (src/unnamed/part_000 lines 118-126): try the
persistent table, then the ephemeral table; when the ephemeral removal
returns no error the function falls through to the not-found error. -/
def RemoveItem (os : OsCmd → Option String) (st : RouteState)
    (cidr : String) : RouteOutcome :=
  match itemsRemove st.items cidr with
  | some (_, items2) =>
    let r := RouteDeleteRoute os cidr
    (r.1, { st with items := items2 }, r.2)
  | none =>
    match RemoveEphemeralItem os st cidr with
    | (some e, st2, cmds) => (some e, st2, cmds)
    | (none, st2, cmds) => (some (RouteError.notFound cidr), st2, cmds)

/-- Go `Route.PersistEphemeralItem` (src/unnamed/part_000 lines 135-142):
remove from the ephemeral table, append to the persistent table, sort;
no OS command. -/
def PersistEphemeralItem (st : RouteState) (cidr : String) : RouteOutcome :=
  match ephRemove st.ephemeralItems cidr with
  | some (ei, eph2) =>
    (none,
     { st with ephemeralItems := eph2, items := itemsSort (itemsAppend st.items ei.item) },
     [])
  | none => (some (RouteError.notFound cidr), st, [])

/-- Go `Route.Match` (src/unnamed/part_000 lines 157-165): consult the
ephemeral table first, then the persistent table. -/
def RouteMatch (st : RouteState) (t : IPNet) : Option Item :=
  match ephMatch st.ephemeralItems t with
  | some ei => some ei.item
  | none => itemsMatch st.items t

/-- Go `Route.AddEphemeralItem` (src/unnamed/part_000 lines 144-155):
validate the CIDR syntax, insert into the ephemeral table, coalesce a wake
signal, invoke the OS route-install. There is no containment check. -/
def AddEphemeralItem (os : OsCmd → Option String) (st : RouteState)
    (i : EphemeralItem) : RouteOutcome :=
  match checkValidCIDR i.item.CIDR with
  | some e => (some e, st, [])
  | none =>
    let st2 := { st with ephemeralItems := ephInsert i st.ephemeralItems,
                         newEphemeralItem := true }
    let r := RouteSetRoute os st.devName i.item.CIDR
    (r.1, st2, r.2)

/-- Go `Route.AddItem` (src/unnamed/part_000 lines 167-174): containment
check against both tables through `Route.Match`, then append, sort and
invoke the OS route-install. There is no CIDR-syntax validation. -/
def AddItem (os : OsCmd → Option String) (st : RouteState) (i : Item) :
    RouteOutcome :=
  match RouteMatch st i.ipnet with
  | some j => (some (RouteError.contains i.CIDR j.CIDR), st, [])
  | none =>
    let st2 := { st with items := itemsSort (itemsAppend st.items i) }
    let r := RouteSetRoute os st.devName i.CIDR
    (r.1, st2, r.2)

/-- Go `packet.Packet` envelope, reduced to the fields the controller reads:
the one-byte type tag and the correlation id `IV.ReqId`. -/
structure CPacket where
  ty : Nat
  reqId : Nat
deriving DecidableEq

/-- Go `controller.Request`: packet plus optional single-use reply slot
(`Reply != nil` is `hasReply`). -/
structure CReq where
  pkt : CPacket
  hasReply : Bool
deriving DecidableEq

/-- The staging table `map[uint32]*Request`. -/
abbrev Staging := Nat → Option CReq

/-- Mutable per-instance fields of Go `controller.Controller` used by the
claims: the `reqId` counter and the staging table. -/
structure CtlState where
  reqId : Nat
  staging : Staging

/-- Go `Controller.GetReqId`: `atomic.AddUint32(&c.reqId, 1)` returns the
incremented value, wrapping at 2^32. -/
def getReqId (c : CtlState) : Nat × CtlState :=
  let v := (c.reqId + 1) % 4294967296
  (v, { c with reqId := v })

/-- Insert a binding into the staging table (`c.staging[id] = req`). -/
def insertStaging (s : Staging) (id : Nat) (r : CReq) : Staging :=
  fun k => if k = id then some r else s k

/-- Delete a binding from the staging table (`delete(c.staging, id)`). -/
def deleteStaging (s : Staging) (id : Nat) : Staging :=
  fun k => if k = id then none else s k

/-- Modelled from the spec: `packet.InitIV` (package `next/packet`, not under
src/) assigns the write-once correlation id from the controller's `GetReqId`
counter at transmission time. -/
def InitIV (c : CtlState) (p : CPacket) : CPacket × CtlState :=
  let r := getReqId c
  ({ p with reqId := r.1 }, r.2)

/-- Observable effect of one iteration of the read loop on an inbound
packet. -/
inductive ReadEffect
  /-- the response was sent into the staging entry's reply slot. -/
  | delivered (id : Nat) (p : CPacket)
  /-- the slot was absent or could not accept the value; nothing was sent. -/
  | dropped
  /-- response with no staging entry: silently discarded. -/
  | discarded
  /-- non-response packet forwarded to the inbound queue `c.out`. -/
  | forwarded (p : CPacket)
deriving DecidableEq

/-- Go `Controller.readLoop` body for one received packet
(src/controller/controller.go lines 102-123). `canAccept` tells whether the
non-blocking send on the reply slot would succeed at this instant. -/
def readStep (isResp : Nat → Bool) (canAccept : Bool) (stg : Staging)
    (p : CPacket) : Staging × ReadEffect :=
  if isResp p.ty then
    match stg p.reqId with
    | some r =>
      (deleteStaging stg p.reqId,
       if r.hasReply then
         (if canAccept then ReadEffect.delivered p.reqId p else ReadEffect.dropped)
       else ReadEffect.dropped)
    | none => (stg, ReadEffect.discarded)
  else (stg, ReadEffect.forwarded p)

/-- Go `Controller.writeLoop` body for one submitted request
(src/controller/controller.go lines 143-155): request-kind packets get a
fresh correlation id via `InitIV` and are staged; every packet is then
transmitted on `toDC`. The returned packet is the transmitted one. -/
def writeStep (isReq : Nat → Bool) (c : CtlState) (req : CReq) :
    CtlState × CPacket :=
  if isReq req.pkt.ty then
    let r := InitIV c req.pkt
    let req2 := { req with pkt := r.1 }
    ({ r.2 with staging := insertStaging r.2.staging r.1.reqId req2 }, req2.pkt)
  else (c, req.pkt)

/-! Helper lemmas about the string layer, leading to idempotence of
`FormatCIDR`. -/

theorem hasSlash_append (a b : List Char) :
    hasSlash (a ++ b) = (hasSlash a || hasSlash b) := by
  induction a with
  | nil => simp [hasSlash]
  | cons c r ih => simp [hasSlash, ih, Bool.or_assoc]

theorem hasSlash_eq_false_iff (l : List Char) :
    hasSlash l = false ↔ ∀ c ∈ l, (c == '/') = false := by
  induction l with
  | nil => simp [hasSlash]
  | cons c r ih => simp [hasSlash, ih]

theorem splitSlash_append (a b : List Char) (h : hasSlash a = false) :
    splitSlash (a ++ '/' :: b) = some (a, b) := by
  induction a with
  | nil => simp [splitSlash]
  | cons c r ih =>
    simp only [hasSlash, Bool.or_eq_false_iff] at h
    simp [splitSlash, h.1, ih h.2]

theorem splitDot_ne_nil (l : List Char) : splitDot l ≠ [] := by
  induction l with
  | nil => simp [splitDot]
  | cons c r ih =>
    by_cases hc : (c == '.') = true
    · simp [splitDot, hc]
    · simp only [splitDot, Bool.not_eq_true] at hc ⊢
      rw [hc]
      simp only [Bool.false_eq_true, if_false]
      cases hsp : splitDot r with
      | nil => exact absurd hsp ih
      | cons g gs => simp

theorem splitDot_noDot (a : List Char) (h : ∀ c ∈ a, (c == '.') = false) :
    splitDot a = [a] := by
  induction a with
  | nil => simp [splitDot]
  | cons c r ih =>
    have hc := h c (by simp)
    have hr := ih (fun x hx => h x (by simp [hx]))
    simp [splitDot, hc, hr]

theorem splitDot_append (a r : List Char) (h : ∀ c ∈ a, (c == '.') = false) :
    splitDot (a ++ '.' :: r) = a :: splitDot r := by
  induction a with
  | nil => simp [splitDot]
  | cons c s ih =>
    have hc := h c (by simp)
    have hs := ih (fun x hx => h x (by simp [hx]))
    simp only [List.cons_append, splitDot, hc, Bool.false_eq_true, if_false,
      List.append_eq, hs]

theorem digit_facts : ∀ k < 10, isDigitC (decDigit k) = true ∧
    ((decDigit k) == '.') = false ∧ ((decDigit k) == '/') = false ∧
    (decDigit k).toNat - 48 = k := by decide

theorem digitsVal_append (l : List Char) (c : Char) :
    digitsVal (l ++ [c]) = digitsVal l * 10 + (c.toNat - 48) := by
  unfold digitsVal
  rw [List.foldl_append]
  rfl

theorem decAux_spec : ∀ fuel n, n < 10 ^ (fuel + 1) →
    decAux (fuel + 1) n ≠ [] ∧
    (∀ c ∈ decAux (fuel + 1) n, isDigitC c = true ∧ (c == '.') = false ∧
      (c == '/') = false) ∧
    digitsVal (decAux (fuel + 1) n) = n := by
  intro fuel
  induction fuel with
  | zero =>
    intro n hn
    have h10 : n < 10 := by simpa using hn
    have hd := digit_facts n h10
    refine ⟨by simp [decAux, h10], ?_, ?_⟩
    · intro c hc
      simp [decAux, h10] at hc
      subst hc
      exact ⟨hd.1, hd.2.1, hd.2.2.1⟩
    · simp only [decAux, h10, if_pos]
      show digitsVal [decDigit n] = n
      unfold digitsVal
      simp [List.foldl, hd.2.2.2]
  | succ f ih =>
    intro n hn
    by_cases h10 : n < 10
    · have hd := digit_facts n h10
      refine ⟨by simp [decAux, h10], ?_, ?_⟩
      · intro c hc
        simp [decAux, h10] at hc
        subst hc
        exact ⟨hd.1, hd.2.1, hd.2.2.1⟩
      · simp only [decAux, h10, if_pos]
        show digitsVal [decDigit n] = n
        unfold digitsVal
        simp [List.foldl, hd.2.2.2]
    · have hdiv : n / 10 < 10 ^ (f + 1) := by
        rw [Nat.div_lt_iff_lt_mul (by norm_num)]
        calc n < 10 ^ (f + 1 + 1) := hn
        _ = 10 ^ (f + 1) * 10 := by ring
      obtain ⟨hne, hmem, hval⟩ := ih (n / 10) hdiv
      have hmod := digit_facts (n % 10) (Nat.mod_lt n (by norm_num))
      have hstep : decAux (f + 1 + 1) n =
          decAux (f + 1) (n / 10) ++ [decDigit (n % 10)] := by
        simp [decAux, h10]
      refine ⟨by simp [hstep], ?_, ?_⟩
      · intro c hc
        rw [hstep] at hc
        rcases List.mem_append.1 hc with hc1 | hc1
        · exact hmem c hc1
        · simp at hc1
          subst hc1
          exact ⟨hmod.1, hmod.2.1, hmod.2.2.1⟩
      · rw [hstep, digitsVal_append, hval, hmod.2.2.2]
        omega

theorem lt_ten_pow_succ (n : Nat) : n < 10 ^ (n + 1) := by
  calc n < 2 ^ n := Nat.lt_two_pow n
  _ ≤ 10 ^ n := Nat.pow_le_pow_left (by norm_num) n
  _ ≤ 10 ^ (n + 1) := Nat.pow_le_pow_right (by norm_num) (Nat.le_succ n)

theorem decL_spec (n : Nat) : decL n ≠ [] ∧
    (∀ c ∈ decL n, isDigitC c = true ∧ (c == '.') = false ∧ (c == '/') = false) ∧
    digitsVal (decL n) = n :=
  decAux_spec n n (lt_ten_pow_succ n)

theorem parseNatL_decL (n : Nat) : parseNatL (decL n) = some n := by
  obtain ⟨hne, hmem, hval⟩ := decL_spec n
  have hall : (decL n).all isDigitC = true :=
    List.all_eq_true.2 (fun c hc => (hmem c hc).1)
  cases h : decL n with
  | nil => exact absurd h hne
  | cons c r =>
    rw [h] at hall hval
    simp [parseNatL, hall, hval]

theorem natSub_mod_eq_mul_div (a k : Nat) : a - a % k = k * (a / k) := by
  conv_lhs =>
    lhs
    rw [← Nat.div_add_mod a k]
  exact Nat.add_sub_cancel (k * (a / k)) (a % k)

theorem maskBits_idem (p a : Nat) : maskBits p (maskBits p a) = maskBits p a := by
  unfold maskBits
  rw [natSub_mod_eq_mul_div a (2 ^ (32 - p)), Nat.mul_mod_right, Nat.sub_zero]

theorem maskBits_le (p a : Nat) : maskBits p a ≤ a := Nat.sub_le a _

theorem parseIPv4_ipv4L (a : Nat) (h : a < 4294967296) :
    parseIPv4L (ipv4L a) = some a := by
  have h3 : a / 16777216 ≤ 255 := by omega
  have h2 : a / 65536 % 256 ≤ 255 := by omega
  have h1 : a / 256 % 256 ≤ 255 := by omega
  have h0 : a % 256 ≤ 255 := by omega
  have nd : ∀ m : Nat, ∀ c ∈ decL m, (c == '.') = false :=
    fun m c hc => ((decL_spec m).2.1 c hc).2.1
  have hsplit : splitDot (ipv4L a) =
      [decL (a / 16777216), decL (a / 65536 % 256), decL (a / 256 % 256),
       decL (a % 256)] := by
    unfold ipv4L
    rw [splitDot_append _ _ (nd _), splitDot_append _ _ (nd _),
      splitDot_append _ _ (nd _), splitDot_noDot _ (nd _)]
  unfold parseIPv4L
  rw [hsplit]
  simp only [parseNatL_decL]
  rw [if_pos ⟨h3, h2, h1, h0⟩]
  congr 1
  omega

theorem hasSlash_decL (m : Nat) : hasSlash (decL m) = false :=
  (hasSlash_eq_false_iff _).2 (fun c hc => ((decL_spec m).2.1 c hc).2.2)

theorem hasSlash_ipv4L (a : Nat) : hasSlash (ipv4L a) = false := by
  unfold ipv4L
  simp [hasSlash_append, hasSlash_decL, hasSlash]

theorem parseCIDR_netString (n : IPNet) (h1 : n.ones ≤ 32)
    (h2 : n.base < 4294967296) (h3 : maskBits n.ones n.base = n.base) :
    parseCIDRL (netStringL n) = some n := by
  unfold netStringL parseCIDRL
  rw [splitSlash_append _ _ (hasSlash_ipv4L n.base)]
  simp only [parseIPv4_ipv4L n.base h2, parseNatL_decL]
  rw [if_pos h1, h3]

theorem parseIPv4L_lt (l : List Char) (a : Nat) (h : parseIPv4L l = some a) :
    a < 4294967296 := by
  unfold parseIPv4L at h
  split at h
  · split at h
    · split at h
      · injection h with h
        omega
      · exact Option.noConfusion h
    · exact Option.noConfusion h
  · exact Option.noConfusion h

theorem parseCIDRL_wf (l : List Char) (n : IPNet) (h : parseCIDRL l = some n) :
    n.ones ≤ 32 ∧ n.base < 4294967296 ∧ maskBits n.ones n.base = n.base := by
  unfold parseCIDRL at h
  split at h
  · split at h
    · rename_i a m hip hpn
      split at h
      · rename_i hle
        injection h with h
        subst h
        exact ⟨hle, Nat.lt_of_le_of_lt (maskBits_le m a) (parseIPv4L_lt _ a hip),
          maskBits_idem m a⟩
      · exact Option.noConfusion h
    · exact Option.noConfusion h
  · exact Option.noConfusion h

theorem hasSlash_netStringL (n : IPNet) : hasSlash (netStringL n) = true := by
  unfold netStringL
  simp [hasSlash_append, hasSlash]

theorem formatL_of_hasSlash (m : List Char) (h : hasSlash m = true) :
    formatL m = match parseCIDRL m with
      | some n => netStringL n
      | none => m := by
  simp only [formatL, h, if_true]

theorem formatL_hasSlash (l : List Char) : hasSlash (formatL l) = true := by
  by_cases hs : hasSlash l = true
  · rw [formatL_of_hasSlash l hs]
    cases hp : parseCIDRL l with
    | some n => simp [hp, hasSlash_netStringL]
    | none => simp [hp, hs]
  · simp only [Bool.not_eq_true] at hs
    simp only [formatL, hs, Bool.false_eq_true, if_false]
    cases hp : parseCIDRL (l ++ slash32) with
    | some n => simp [hp, hasSlash_netStringL]
    | none => simp [hp, hasSlash_append, slash32, hasSlash]

theorem formatL_idem (l : List Char) : formatL (formatL l) = formatL l := by
  rw [formatL_of_hasSlash (formatL l) (formatL_hasSlash l)]
  by_cases hs : hasSlash l = true
  · rw [formatL_of_hasSlash l hs]
    cases hp : parseCIDRL l with
    | some n =>
      have hwf := parseCIDRL_wf l n hp
      simp [hp, parseCIDR_netString n hwf.1 hwf.2.1 hwf.2.2]
    | none => simp [hp]
  · simp only [Bool.not_eq_true] at hs
    have hform : formatL l = (match parseCIDRL (l ++ slash32) with
        | some n => netStringL n
        | none => l ++ slash32) := by
      simp only [formatL, hs, Bool.false_eq_true, if_false]
    rw [hform]
    cases hp : parseCIDRL (l ++ slash32) with
    | some n =>
      have hwf := parseCIDRL_wf _ n hp
      simp [hp, parseCIDR_netString n hwf.1 hwf.2.1 hwf.2.2]
    | none => simp [hp]

/-! Helper lemmas about table matching and removal. -/

theorem MatchIPNet_self (n : IPNet) (h : maskBits n.ones n.base = n.base) :
    MatchIPNet n n = true := by
  simp [MatchIPNet, netContainsB, h]

theorem ephMatch_none_iff (l : List EphemeralItem) (t : IPNet) :
    ephMatch l t = none ↔ ∀ e ∈ l, MatchIPNet t e.item.ipnet = false := by
  induction l with
  | nil => simp [ephMatch]
  | cons e rest ih =>
    by_cases hm : MatchIPNet t e.item.ipnet = true
    · simp [ephMatch, hm]
    · simp only [Bool.not_eq_true] at hm
      simp [ephMatch, hm, ih]

theorem itemsMatch_none_iff (l : List Item) (t : IPNet) :
    itemsMatch l t = none ↔ ∀ i ∈ l, MatchIPNet t i.ipnet = false := by
  induction l with
  | nil => simp [itemsMatch]
  | cons i rest ih =>
    by_cases hm : MatchIPNet t i.ipnet = true
    · simp [itemsMatch, hm]
    · simp only [Bool.not_eq_true] at hm
      simp [itemsMatch, hm, ih]

theorem ephMatch_of_remove (l l2 : List EphemeralItem) (c : String)
    (ei : EphemeralItem) (t : IPNet)
    (hrem : ephRemove l c = some (ei, l2))
    (hothers : ∀ e ∈ l2, MatchIPNet t e.item.ipnet = false)
    (hei : MatchIPNet t ei.item.ipnet = true) :
    ephMatch l t = some ei := by
  induction l generalizing l2 with
  | nil => exact Option.noConfusion hrem
  | cons f rest ih =>
    by_cases hf : f.item.CIDR = c
    · rw [show ephRemove (f :: rest) c = some (f, rest) from by
        simp [ephRemove, hf]] at hrem
      injection hrem with hrem
      injection hrem with h1 h2
      subst h1
      simp [ephMatch, hei]
    · have hstep : ephRemove (f :: rest) c =
          (ephRemove rest c).map (fun p => (p.1, f :: p.2)) := by
        simp [ephRemove, hf]
      rw [hstep] at hrem
      cases hr : ephRemove rest c with
      | none => rw [hr] at hrem; exact Option.noConfusion hrem
      | some p =>
        rw [hr] at hrem
        injection hrem with hrem
        injection hrem with h1 h2
        subst h1
        subst h2
        have hfmem : f ∈ f :: p.2 := by simp
        have hfnone := hothers f hfmem
        have hrest : ∀ e ∈ p.2, MatchIPNet t e.item.ipnet = false :=
          fun e he => hothers e (by simp [he])
        simp only [ephMatch, hfnone, Bool.false_eq_true, if_false]
        exact ih p.2 (by rw [hr]) hrest
  
theorem mem_insertSorted (x i : Item) (l : List Item) :
    x ∈ insertSorted i l ↔ x = i ∨ x ∈ l := by
  induction l with
  | nil => simp [insertSorted]
  | cons j rest ih =>
    by_cases hle : strLe i.CIDR j.CIDR = true
    · simp [insertSorted, hle]
    · simp only [Bool.not_eq_true] at hle
      simp [insertSorted, hle, ih]
      tauto

theorem mem_itemsSort (x : Item) (l : List Item) : x ∈ itemsSort l ↔ x ∈ l := by
  induction l with
  | nil => simp [itemsSort]
  | cons i rest ih => simp [itemsSort, mem_insertSorted, ih]

theorem itemsMatch_eq_some (m : List Item) (i : Item) (t : IPNet)
    (hmem : i ∈ m) (hmatch : MatchIPNet t i.ipnet = true)
    (huniq : ∀ j ∈ m, MatchIPNet t j.ipnet = true → j = i) :
    itemsMatch m t = some i := by
  induction m with
  | nil => exact absurd hmem (by simp)
  | cons j rest ih =>
    by_cases hj : MatchIPNet t j.ipnet = true
    · have := huniq j (by simp) hj
      subst this
      simp [itemsMatch, hj]
    · simp only [Bool.not_eq_true] at hj
      have hine : i ≠ j := fun he => by rw [he] at hmatch; rw [hmatch] at hj; exact Bool.noConfusion hj
      have hmem2 : i ∈ rest := by
        rcases List.mem_cons.1 hmem with h | h
        · exact absurd h hine
        · exact h
      simp only [itemsMatch, hj, Bool.false_eq_true, if_false]
      exact ih hmem2 (fun k hk hkm => huniq k (by simp [hk]) hkm)

/-! Claim theorems. -/

/-- C8: `FormatCIDR "10.0.0.1"` equals `"10.0.0.1/32"`, `FormatCIDR
"10.0.0.0/8"` equals `"10.0.0.0/8"`, and `FormatCIDR` is idempotent on
every input string. -/
theorem FormatCIDR_spec :
    FormatCIDR "10.0.0.1" = "10.0.0.1/32" ∧
    FormatCIDR "10.0.0.0/8" = "10.0.0.0/8" ∧
    ∀ s : String, FormatCIDR (FormatCIDR s) = FormatCIDR s := by
  refine ⟨by decide, by decide, ?_⟩
  intro s
  show String.mk (formatL (formatL s.data)) = String.mk (formatL s.data)
  rw [formatL_idem]

/-- C9: `GetReqId` returns the previous counter value plus one modulo 2^32,
stores that value back, touches nothing else of the instance, is
monotonically increasing except at the 32-bit wrap, and depends only on the
instance's own counter. -/
theorem GetReqId_spec (c : CtlState) :
    (getReqId c).1 = (c.reqId + 1) % 4294967296 ∧
    (getReqId c).2.reqId = (c.reqId + 1) % 4294967296 ∧
    (getReqId c).2.staging = c.staging ∧
    (c.reqId + 1 < 4294967296 → (getReqId c).1 = c.reqId + 1) ∧
    (c.reqId = 4294967295 → (getReqId c).1 = 0) ∧
    (∀ d : CtlState, d.reqId = c.reqId → (getReqId d).1 = (getReqId c).1) := by
  refine ⟨rfl, rfl, rfl, ?_, ?_, ?_⟩
  · intro h
    simp only [getReqId]
    omega
  · intro h
    simp [getReqId, h]
  · intro d hd
    simp [getReqId, hd]

/-- Witness for C9 at two concrete counters: value 41 yields 42, and the
counter wraps from 4294967295 to 0. -/
theorem GetReqId_spec_witness :
    (getReqId (CtlState.mk 41 (fun _ => none))).1 = 42 ∧
    (getReqId (CtlState.mk 4294967295 (fun _ => none))).1 = 0 :=
  ⟨(GetReqId_spec (CtlState.mk 41 (fun _ => none))).2.2.2.1 (by decide),
   (GetReqId_spec (CtlState.mk 4294967295 (fun _ => none))).2.2.2.2.1 rfl⟩

/-- C10: `Route.Match` consults the ephemeral table first: an ephemeral match
is returned as is, and the persistent table is consulted exactly when the
ephemeral table yields no match. -/
theorem RouteMatch_ephemeral_first (st : RouteState) (t : IPNet) :
    (∀ ei, ephMatch st.ephemeralItems t = some ei →
      RouteMatch st t = some ei.item) ∧
    (ephMatch st.ephemeralItems t = none →
      RouteMatch st t = itemsMatch st.items t) := by
  constructor
  · intro ei h
    simp [RouteMatch, h]
  · intro h
    simp [RouteMatch, h]

/-- Witness for C10 at a state whose two tables both match the queried
network: the ephemeral entry wins even though the persistent table also
matches. -/
theorem RouteMatch_ephemeral_first_witness :
    RouteMatch
      (RouteState.mk [Item.mk "10.0.0.0/16" "" (IPNet.mk 167772160 16)]
        [EphemeralItem.mk (Item.mk "10.0.1.0/24" "" (IPNet.mk 167772416 24)) 9]
        "tun0" false)
      (IPNet.mk 167772416 24) =
      some (Item.mk "10.0.1.0/24" "" (IPNet.mk 167772416 24)) ∧
    itemsMatch [Item.mk "10.0.0.0/16" "" (IPNet.mk 167772160 16)]
      (IPNet.mk 167772416 24) =
      some (Item.mk "10.0.0.0/16" "" (IPNet.mk 167772160 16)) :=
  ⟨(RouteMatch_ephemeral_first
      (RouteState.mk [Item.mk "10.0.0.0/16" "" (IPNet.mk 167772160 16)]
        [EphemeralItem.mk (Item.mk "10.0.1.0/24" "" (IPNet.mk 167772416 24)) 9]
        "tun0" false)
      (IPNet.mk 167772416 24)).1
    (EphemeralItem.mk (Item.mk "10.0.1.0/24" "" (IPNet.mk 167772416 24)) 9)
    (by decide),
   by decide⟩

/-- C2: on a response-kind inbound packet, a present staging entry receives
the packet by a non-blocking send (delivered exactly when the slot can
accept, dropped otherwise) and is removed, making delivery at most once;
an absent correlation id leaves the staging table unchanged and the packet
is discarded. -/
theorem readLoop_response_resolution (isResp : Nat → Bool) (canAccept : Bool)
    (stg : Staging) (p : CPacket) (hresp : isResp p.ty = true) :
    (∀ r, stg p.reqId = some r →
      readStep isResp canAccept stg p =
        (deleteStaging stg p.reqId,
         if r.hasReply && canAccept then ReadEffect.delivered p.reqId p
         else ReadEffect.dropped) ∧
      (readStep isResp canAccept stg p).1 p.reqId = none) ∧
    (stg p.reqId = none →
      readStep isResp canAccept stg p = (stg, ReadEffect.discarded)) := by
  constructor
  · intro r hr
    have hstep : readStep isResp canAccept stg p =
        (deleteStaging stg p.reqId,
         if r.hasReply then
           (if canAccept then ReadEffect.delivered p.reqId p
            else ReadEffect.dropped)
         else ReadEffect.dropped) := by
      simp [readStep, hresp, hr]
    refine ⟨?_, ?_⟩
    · rw [hstep]
      cases hb : r.hasReply <;> cases hc : canAccept <;> simp
    · rw [hstep]
      simp [deleteStaging]
  · intro hr
    simp [readStep, hresp, hr]

/-- Witness for C2: a response packet with a staged entry at id 5 is
delivered and the entry removed. -/
theorem readLoop_response_resolution_witness :
    readStep (fun t => t == 2) true
      (fun k => if k = 5 then some (CReq.mk (CPacket.mk 1 0) true) else none)
      (CPacket.mk 2 5) =
      (deleteStaging
        (fun k => if k = 5 then some (CReq.mk (CPacket.mk 1 0) true) else none) 5,
       ReadEffect.delivered 5 (CPacket.mk 2 5)) ∧
    (readStep (fun t => t == 2) true
      (fun k => if k = 5 then some (CReq.mk (CPacket.mk 1 0) true) else none)
      (CPacket.mk 2 5)).1 5 = none := by
  have h := (readLoop_response_resolution (fun t => t == 2) true
      (fun k => if k = 5 then some (CReq.mk (CPacket.mk 1 0) true) else none)
      (CPacket.mk 2 5) (by decide)).1 (CReq.mk (CPacket.mk 1 0) true) (by decide)
  exact ⟨by simpa using h.1, h.2⟩

/-- C7: the write loop stages a packet under a freshly drawn correlation id
exactly when it is request-kind; a non-request packet is transmitted
unchanged with no staging and no new id; in both cases the packet is
transmitted (second component of `writeStep`). -/
theorem writeLoop_staging_spec (isReq : Nat → Bool) (c : CtlState) (req : CReq) :
    (isReq req.pkt.ty = true →
      writeStep isReq c req =
        ({ reqId := (c.reqId + 1) % 4294967296,
           staging := insertStaging c.staging ((c.reqId + 1) % 4294967296)
             { req with pkt := { req.pkt with reqId := (c.reqId + 1) % 4294967296 } } },
         { req.pkt with reqId := (c.reqId + 1) % 4294967296 }) ∧
      (writeStep isReq c req).1.staging ((c.reqId + 1) % 4294967296) =
        some { req with pkt := { req.pkt with reqId := (c.reqId + 1) % 4294967296 } } ∧
      (∀ k, k ≠ (c.reqId + 1) % 4294967296 →
        (writeStep isReq c req).1.staging k = c.staging k) ∧
      (writeStep isReq c req).1.reqId = (c.reqId + 1) % 4294967296) ∧
    (isReq req.pkt.ty = false →
      writeStep isReq c req = (c, req.pkt)) := by
  constructor
  · intro h
    have hstep : writeStep isReq c req =
        ({ reqId := (c.reqId + 1) % 4294967296,
           staging := insertStaging c.staging ((c.reqId + 1) % 4294967296)
             { req with pkt := { req.pkt with reqId := (c.reqId + 1) % 4294967296 } } },
         { req.pkt with reqId := (c.reqId + 1) % 4294967296 }) := by
      simp [writeStep, h, InitIV, getReqId]
    refine ⟨hstep, ?_, ?_, ?_⟩
    · rw [hstep]
      simp [insertStaging]
    · intro k hk
      rw [hstep]
      simp [insertStaging, hk]
    · rw [hstep]
  · intro h
    simp [writeStep, h]

/-- Witness for C7: a request-kind packet submitted at counter 7 is staged
under id 8 and transmitted with id 8; other staging keys are untouched. -/
theorem writeLoop_staging_spec_witness :
    (writeStep (fun t => t == 1) (CtlState.mk 7 (fun _ => none))
      (CReq.mk (CPacket.mk 1 0) true)).2 = CPacket.mk 1 8 ∧
    (writeStep (fun t => t == 1) (CtlState.mk 7 (fun _ => none))
      (CReq.mk (CPacket.mk 1 0) true)).1.staging 8 =
      some (CReq.mk (CPacket.mk 1 8) true) ∧
    (writeStep (fun t => t == 1) (CtlState.mk 7 (fun _ => none))
      (CReq.mk (CPacket.mk 1 0) true)).1.staging 3 = none := by
  have h := (writeLoop_staging_spec (fun t => t == 1)
      (CtlState.mk 7 (fun _ => none)) (CReq.mk (CPacket.mk 1 0) true)).1 (by decide)
  refine ⟨?_, ?_, ?_⟩
  · rw [h.1]
    rfl
  · exact h.2.1
  · exact h.2.2.1 3 (by decide)

/-- C1 counterexample: with "10.0.0.0/8" already in the persistent table,
`AddEphemeralItem` for the contained network "10.0.0.0/24" returns no
conflict error, inserts the item into the ephemeral table and invokes the
OS route-install, contradicting the claim that overlapping items are
rejected with both tables left unchanged. -/
theorem AddEphemeralItem_overlap_accepted :
    MatchIPNet (IPNet.mk 167772160 24) (IPNet.mk 167772160 8) = true ∧
    AddEphemeralItem (fun _ => none)
      (RouteState.mk [Item.mk "10.0.0.0/8" "" (IPNet.mk 167772160 8)] [] "tun0" false)
      (EphemeralItem.mk (Item.mk "10.0.0.0/24" "" (IPNet.mk 167772160 24)) 100) =
      (none,
       RouteState.mk [Item.mk "10.0.0.0/8" "" (IPNet.mk 167772160 8)]
         [EphemeralItem.mk (Item.mk "10.0.0.0/24" "" (IPNet.mk 167772160 24)) 100]
         "tun0" true,
       [OsCmd.set "tun0" "10.0.0.0/24"]) := by decide

/-- C1 amended: `AddEphemeralItem` checks only CIDR syntax; every
syntactically valid item is inserted into the ephemeral table in expiry
order, the wake signal is raised and the OS route-install is invoked,
regardless of containment against either table. -/
theorem AddEphemeralItem_syntax_only (os : OsCmd → Option String)
    (st : RouteState) (i : EphemeralItem)
    (h : checkValidCIDR i.item.CIDR = none) :
    AddEphemeralItem os st i =
      ((os (OsCmd.set st.devName i.item.CIDR)).map RouteError.osFail,
       { st with ephemeralItems := ephInsert i st.ephemeralItems,
                 newEphemeralItem := true },
       [OsCmd.set st.devName i.item.CIDR]) := by
  simp [AddEphemeralItem, h, RouteSetRoute]

/-- Witness for C1's amended statement on an empty route. -/
theorem AddEphemeralItem_syntax_only_witness :
    AddEphemeralItem (fun _ => none) (RouteState.mk [] [] "tun0" false)
      (EphemeralItem.mk (Item.mk "10.0.0.0/24" "" (IPNet.mk 167772160 24)) 7) =
      (none,
       RouteState.mk []
         [EphemeralItem.mk (Item.mk "10.0.0.0/24" "" (IPNet.mk 167772160 24)) 7]
         "tun0" true,
       [OsCmd.set "tun0" "10.0.0.0/24"]) :=
  AddEphemeralItem_syntax_only (fun _ => none) (RouteState.mk [] [] "tun0" false)
    (EphemeralItem.mk (Item.mk "10.0.0.0/24" "" (IPNet.mk 167772160 24)) 7)
    (by decide)

/-- C4 counterexample: "10.0.0.1" is not valid CIDR syntax, yet `AddItem`
accepts an item carrying it, mutates the persistent table and invokes the
OS route-install — `AddItem` performs no syntax validation. -/
theorem AddItem_no_syntax_validation :
    checkValidCIDR "10.0.0.1" = some (RouteError.invalidCIDR "10.0.0.1") ∧
    AddItem (fun _ => none) (RouteState.mk [] [] "tun0" false)
      (Item.mk "10.0.0.1" "" (IPNet.mk 167772161 32)) =
      (none,
       RouteState.mk [Item.mk "10.0.0.1" "" (IPNet.mk 167772161 32)] [] "tun0" false,
       [OsCmd.set "tun0" "10.0.0.1"]) := by decide

/-- C4 amended: `AddEphemeralItem` validates CIDR syntax first and fails
fast with no mutation and no OS command on invalid input; `AddItem`
performs no syntax validation — whenever the containment check passes it
mutates the table and invokes the OS route-install whatever the CIDR
string's syntax. -/
theorem AddItem_AddEphemeral_validation (os : OsCmd → Option String)
    (st : RouteState) :
    (∀ i e, checkValidCIDR i.item.CIDR = some e →
      AddEphemeralItem os st i = (some e, st, [])) ∧
    (∀ j, RouteMatch st j.ipnet = none →
      AddItem os st j =
        ((os (OsCmd.set st.devName j.CIDR)).map RouteError.osFail,
         { st with items := itemsSort (itemsAppend st.items j) },
         [OsCmd.set st.devName j.CIDR])) := by
  constructor
  · intro i e h
    simp [AddEphemeralItem, h]
  · intro j h
    simp [AddItem, h, RouteSetRoute]

/-- Witness for C4's amended statement: an invalid ephemeral add is rejected
without mutation; `AddItem` with the syntactically invalid string
"10.0.0.1" proceeds. -/
theorem AddItem_AddEphemeral_validation_witness :
    AddEphemeralItem (fun _ => none) (RouteState.mk [] [] "tun0" false)
      (EphemeralItem.mk (Item.mk "bogus" "" (IPNet.mk 0 0)) 3) =
      (some (RouteError.invalidCIDR "bogus"), RouteState.mk [] [] "tun0" false, []) ∧
    AddItem (fun _ => none) (RouteState.mk [] [] "tun0" false)
      (Item.mk "10.0.0.1" "" (IPNet.mk 167772161 32)) =
      (none,
       RouteState.mk [Item.mk "10.0.0.1" "" (IPNet.mk 167772161 32)] [] "tun0" false,
       [OsCmd.set "tun0" "10.0.0.1"]) := by
  have h := AddItem_AddEphemeral_validation (fun _ => none)
    (RouteState.mk [] [] "tun0" false)
  exact ⟨h.1 (EphemeralItem.mk (Item.mk "bogus" "" (IPNet.mk 0 0)) 3)
      (RouteError.invalidCIDR "bogus") (by decide),
    h.2 (Item.mk "10.0.0.1" "" (IPNet.mk 167772161 32)) (by decide)⟩

/-- C5 evaluated at the failing input: the persistent table is empty, the
ephemeral table holds "10.0.1.0/24", and the OS removal succeeds.
`RemoveItem` removes the entry (the resulting ephemeral table is empty) and
the OS delete runs, yet the not-found error is returned — the value the
claim and the spec's error taxonomy assign to an absent CIDR. -/
theorem RemoveItem_ephemeral_success_notFound :
    RemoveItem (fun _ => none)
      (RouteState.mk []
        [EphemeralItem.mk (Item.mk "10.0.1.0/24" "" (IPNet.mk 167772416 24)) 5]
        "tun0" false)
      "10.0.1.0/24" =
      (some (RouteError.notFound "10.0.1.0/24"),
       RouteState.mk [] [] "tun0" false,
       [OsCmd.del "10.0.1.0/24"]) := by decide

/-- C6 counterexample: the persistent table holds "10.0.0.0/16" and the
ephemeral table holds the contained network "10.0.1.0/24" (a reachable
state, since `AddEphemeralItem` performs no containment check). Before the
move, `Route.Match` on 10.0.1.0/24 returns the ephemeral item; after
`PersistEphemeralItem` it returns the persistent "10.0.0.0/16" entry, which
sorts first — the results are not equal. -/
theorem PersistEphemeralItem_match_changes :
    RouteMatch
      (RouteState.mk [Item.mk "10.0.0.0/16" "" (IPNet.mk 167772160 16)]
        [EphemeralItem.mk (Item.mk "10.0.1.0/24" "" (IPNet.mk 167772416 24)) 100]
        "tun0" false)
      (IPNet.mk 167772416 24) =
      some (Item.mk "10.0.1.0/24" "" (IPNet.mk 167772416 24)) ∧
    (PersistEphemeralItem
      (RouteState.mk [Item.mk "10.0.0.0/16" "" (IPNet.mk 167772160 16)]
        [EphemeralItem.mk (Item.mk "10.0.1.0/24" "" (IPNet.mk 167772416 24)) 100]
        "tun0" false)
      "10.0.1.0/24").1 = none ∧
    RouteMatch
      (PersistEphemeralItem
        (RouteState.mk [Item.mk "10.0.0.0/16" "" (IPNet.mk 167772160 16)]
          [EphemeralItem.mk (Item.mk "10.0.1.0/24" "" (IPNet.mk 167772416 24)) 100]
          "tun0" false)
        "10.0.1.0/24").2.1
      (IPNet.mk 167772416 24) =
      some (Item.mk "10.0.0.0/16" "" (IPNet.mk 167772160 16)) ∧
    Item.mk "10.0.0.0/16" "" (IPNet.mk 167772160 16) ≠
      Item.mk "10.0.1.0/24" "" (IPNet.mk 167772416 24) := by decide

/-- C6 amended: for a cidr present in the ephemeral table,
`PersistEphemeralItem` removes the entry from the ephemeral table, appends
its item to the persistent table and re-sorts it, and invokes no OS
command; provided the moved item's network is canonical and no other entry
of either table matches it, `Route.Match` on that network returns the equal
item before and after the move. For an absent cidr it returns the not-found
error and changes nothing. -/
theorem PersistEphemeralItem_spec (st : RouteState) (cidr : String) :
    (∀ ei eph2, ephRemove st.ephemeralItems cidr = some (ei, eph2) →
      maskBits ei.item.ipnet.ones ei.item.ipnet.base = ei.item.ipnet.base →
      ephMatch eph2 ei.item.ipnet = none →
      itemsMatch st.items ei.item.ipnet = none →
      PersistEphemeralItem st cidr =
        (none,
         { st with ephemeralItems := eph2,
                   items := itemsSort (itemsAppend st.items ei.item) },
         []) ∧
      RouteMatch st ei.item.ipnet = some ei.item ∧
      RouteMatch
        { st with ephemeralItems := eph2,
                  items := itemsSort (itemsAppend st.items ei.item) }
        ei.item.ipnet = some ei.item) ∧
    (ephRemove st.ephemeralItems cidr = none →
      PersistEphemeralItem st cidr = (some (RouteError.notFound cidr), st, [])) := by
  constructor
  · intro ei eph2 hrem hcan hephnone hitemsnone
    have hmatchself : MatchIPNet ei.item.ipnet ei.item.ipnet = true :=
      MatchIPNet_self _ hcan
    refine ⟨by simp [PersistEphemeralItem, hrem], ?_, ?_⟩
    · have h1 : ephMatch st.ephemeralItems ei.item.ipnet = some ei :=
        ephMatch_of_remove _ _ _ _ _ hrem
          ((ephMatch_none_iff _ _).1 hephnone) hmatchself
      simp [RouteMatch, h1]
    · have h2 : itemsMatch (itemsSort (itemsAppend st.items ei.item))
          ei.item.ipnet = some ei.item := by
        apply itemsMatch_eq_some
        · rw [mem_itemsSort]
          simp [itemsAppend]
        · exact hmatchself
        · intro j hj hjm
          rw [mem_itemsSort] at hj
          simp only [itemsAppend, List.mem_append, List.mem_singleton] at hj
          rcases hj with hj | hj
          · have hjf := (itemsMatch_none_iff _ _).1 hitemsnone j hj
            rw [hjf] at hjm
            exact Bool.noConfusion hjm
          · exact hj
      simp [RouteMatch, hephnone, h2]
  · intro h
    simp [PersistEphemeralItem, h]

/-- Witness for C6's amended statement: moving "10.0.1.0/24" out of the
ephemeral table next to a non-overlapping persistent "192.168.0.0/16". -/
theorem PersistEphemeralItem_spec_witness :
    PersistEphemeralItem
      (RouteState.mk [Item.mk "192.168.0.0/16" "" (IPNet.mk 3232235520 16)]
        [EphemeralItem.mk (Item.mk "10.0.1.0/24" "" (IPNet.mk 167772416 24)) 50]
        "tun0" false)
      "10.0.1.0/24" =
      (none,
       RouteState.mk
         [Item.mk "10.0.1.0/24" "" (IPNet.mk 167772416 24),
          Item.mk "192.168.0.0/16" "" (IPNet.mk 3232235520 16)]
         [] "tun0" false,
       []) ∧
    RouteMatch
      (RouteState.mk [Item.mk "192.168.0.0/16" "" (IPNet.mk 3232235520 16)]
        [EphemeralItem.mk (Item.mk "10.0.1.0/24" "" (IPNet.mk 167772416 24)) 50]
        "tun0" false)
      (IPNet.mk 167772416 24) = some (Item.mk "10.0.1.0/24" "" (IPNet.mk 167772416 24)) ∧
    RouteMatch
      (RouteState.mk
        [Item.mk "10.0.1.0/24" "" (IPNet.mk 167772416 24),
         Item.mk "192.168.0.0/16" "" (IPNet.mk 3232235520 16)]
        [] "tun0" false)
      (IPNet.mk 167772416 24) = some (Item.mk "10.0.1.0/24" "" (IPNet.mk 167772416 24)) := by
  have h := (PersistEphemeralItem_spec
      (RouteState.mk [Item.mk "192.168.0.0/16" "" (IPNet.mk 3232235520 16)]
        [EphemeralItem.mk (Item.mk "10.0.1.0/24" "" (IPNet.mk 167772416 24)) 50]
        "tun0" false)
      "10.0.1.0/24").1
    (EphemeralItem.mk (Item.mk "10.0.1.0/24" "" (IPNet.mk 167772416 24)) 50) []
    (by decide) (by decide) (by decide) (by decide)
  exact ⟨h.1, h.2.1, h.2.2⟩
